import Mathlib

/-!
Verification of the `clipto` clipboard broker (daemon `clipd`, IPC crate
`clipto-ipc`, CLI client `clipto`) against its natural-language
specification.  The Rust sources are shallowly embedded: byte buffers are
`List Nat`, fallible operations return `Except String`, the AEAD cipher is
an abstract pair of encrypt/decrypt functions (the `chacha20poly1305`
crate is external to this repository), and the random nonce produced by
`OsRng` is passed in explicitly.
-/

namespace Clipto

/-! ## Wire protocol (`clipto-ipc/src/lib.rs`) -/

/-- Enum `CopySource`: where a copy request originated (`User` from the CLI,
`Wayland` from the `wl-paste --watch` bridge). -/
inductive CopySource
  | user
  | wayland
  deriving DecidableEq, Repr

/-- Enum `Request`: the two requests a client may send. -/
inductive Request
  | copy (payload : List Nat) (source : CopySource)
  | paste
  deriving DecidableEq, Repr

/-- Enum `Response`: the daemon's three responses. -/
inductive Response
  | ok
  | payload (data : List Nat)
  | error (message : String)
  deriving DecidableEq, Repr

/-- Function `u32::from_le_bytes` on four bytes. -/
def u32FromLeBytes (b0 b1 b2 b3 : Nat) : Nat :=
  b0 % 256 + (b1 % 256) * 256 + (b2 % 256) * 65536 + (b3 % 256) * 16777216

/-- The little-endian 4-byte encoding of `n < 2^32` (`u32::to_le_bytes`). -/
def u32ToLeBytes (n : Nat) : List Nat :=
  [n % 256, n / 256 % 256, n / 65536 % 256, n / 16777216 % 256]

/-- The framing layer of `read_frame`: read a 4-byte little-endian length,
then exactly that many payload bytes.  Returns the frame body and the rest
of the stream, or an error if the stream ends early.  (The subsequent
bincode deserialization of the body is not modelled here; this function is
what decides how large a frame is accepted.)  Mirrors
`clipto-ipc/src/lib.rs` lines 51-58: note the code performs no check of
`len` against any maximum before allocating `vec![0u8; len]`. -/
def readFrameBytes (input : List Nat) : Except String (List Nat × List Nat) :=
  match input with
  | b0 :: b1 :: b2 :: b3 :: rest =>
    let len := u32FromLeBytes b0 b1 b2 b3
    if len ≤ rest.length then
      Except.ok (rest.take len, rest.drop len)
    else
      Except.error "unexpected end of file"
  | _ => Except.error "unexpected end of file"

/-- The declared length of a stream's first frame, when the 4-byte length
prefix is present. -/
def declaredLen (input : List Nat) : Option Nat :=
  match input with
  | b0 :: b1 :: b2 :: b3 :: _ => some (u32FromLeBytes b0 b1 b2 b3)
  | _ => none

/-! ## Encrypted store (`clipd/src/main.rs`) -/

/-- The AEAD cipher context (`ChaCha20Poly1305`), abstract: the crate is
external to this repository.  `encrypt nonce plaintext` and
`decrypt nonce ciphertext` may fail (`aead::Error`), modelled as `Option`. -/
structure Cipher where
  encrypt : List Nat → List Nat → Option (List Nat)
  decrypt : List Nat → List Nat → Option (List Nat)

/-- A correct AEAD: decrypting under the same nonce recovers the plaintext. -/
def Cipher.RoundTrip (c : Cipher) : Prop :=
  ∀ nonce plaintext ciphertext,
    c.encrypt nonce plaintext = some ciphertext →
      c.decrypt nonce ciphertext = some plaintext

/-- Struct `EncryptedBuffer`: one (nonce, ciphertext) pair. -/
structure EncryptedBuffer where
  nonce : List Nat
  ciphertext : List Nat
  deriving DecidableEq, Repr

/-- Struct `State`: the daemon state — the session cipher and at most one entry. -/
structure State where
  cipher : Cipher
  buffer : Option EncryptedBuffer

/-- Method `State::store` (`clipd/src/main.rs` lines 39-47).  The fresh random
nonce from `OsRng` is an explicit argument.  On encryption failure the
`?` operator returns before `self.buffer` is assigned, so the error case
carries no new state: the caller keeps the old one. -/
def State.store (st : State) (nonce plaintext : List Nat) : Except String State :=
  match st.cipher.encrypt nonce plaintext with
  | some ciphertext =>
    Except.ok { st with buffer := some ⟨nonce, ciphertext⟩ }
  | none => Except.error "encryption failed"

/-- Method `State::load` (`clipd/src/main.rs` lines 49-57). -/
def State.load (st : State) : Except String (List Nat) :=
  match st.buffer with
  | none => Except.error "clipboard is empty"
  | some buf =>
    match st.cipher.decrypt buf.nonce buf.ciphertext with
    | some plaintext => Except.ok plaintext
    | none => Except.error "decryption failed"

/-! ## Connection handler (`clipd/src/main.rs` lines 96-135) -/

/-- Function `sync_to_wayland` (`clipd/src/main.rs` lines 141-155).  `waylandUp`
models `wayland_socket().is_some()`; `wlCopyOk` models whether spawning
`wl-copy`, writing to its stdin and waiting all succeed. -/
def sync_to_wayland (waylandUp : Bool) (wlCopyOk : Bool) (_payload : List Nat) :
    Except String Unit :=
  if waylandUp then
    if wlCopyOk then Except.ok () else Except.error "wl-copy failed"
  else
    Except.error "no Wayland compositor"

/-- Whether `sync_to_wayland` reaches the `wl-copy` spawn, i.e. the
payload is actually forwarded to the compositor bridge. -/
def forwardsToBridge (waylandUp : Bool) : Bool := waylandUp

/-- The result of serving one connection: the response written back, the
daemon state after the request, and whether the plaintext was forwarded
to the compositor bridge (a `wl-copy` spawn was attempted). -/
structure HandleResult where
  response : Response
  state : State
  forwarded : Bool

/-- Function `handle_connection` (`clipd/src/main.rs` lines 96-135), with the state
threaded explicitly (in Rust it sits behind `Arc<Mutex<_>>`).  `nonce` is
the fresh nonce `store` would draw, `waylandUp` whether the compositor
socket is present, `wlCopyOk` whether the `wl-copy` subprocess succeeds.
The `let _ := ...` mirrors `let _ = sync_to_wayland(&payload);` — the
outcome of the best-effort forward is discarded. -/
def handle_connection (st : State) (req : Request) (nonce : List Nat)
    (waylandUp : Bool) (wlCopyOk : Bool) : HandleResult :=
  match req with
  | .copy payload source =>
    match st.store nonce payload with
    | .ok st' =>
      let shouldSync := source = CopySource.user
      if shouldSync then
        let _ := sync_to_wayland waylandUp wlCopyOk payload
        { response := .ok, state := st', forwarded := forwardsToBridge waylandUp }
      else
        { response := .ok, state := st', forwarded := false }
    | .error e => { response := .error e, state := st, forwarded := false }
  | .paste =>
    match st.load with
    | .ok data => { response := .payload data, state := st, forwarded := false }
    | .error e => { response := .error e, state := st, forwarded := false }

/-! ## Key manager (`clipd/src/main.rs` lines 72-92 and `main` lines 246-263) -/

/-- What the filesystem holds at a path: no file, a file whose read fails,
or a readable file with its bytes.  (`path.exists()` is true for the last
two; `std::fs::read` succeeds only for the last.) -/
inductive FsEntry
  | absent
  | unreadable
  | file (bytes : List Nat)
  deriving DecidableEq, Repr

/-- The environment variables `load_key` consults. -/
structure Env where
  credentialsDirectory : Option String
  cliptoKeyFile : Option String

/-- The `CLIPTO_KEY_FILE` branch of `load_key` and its final `bail!`
(`clipd/src/main.rs` lines 82-91). -/
def load_key_fallback (env : Env) (fs : String → FsEntry) : Except String (List Nat) :=
  match env.cliptoKeyFile with
  | some keyFile =>
    match fs keyFile with
    | .file bytes => Except.ok bytes
    | _ => Except.error ("failed to read key from " ++ keyFile)
  | none =>
    Except.error
      "no key found: run as a systemd service with LoadCredentialEncrypted=clipto-key:..., or set CLIPTO_KEY_FILE for development"

/-- Function `load_key` (`clipd/src/main.rs` lines 72-92): try
`$CREDENTIALS_DIRECTORY/clipto-key` when the variable is set and that file
exists, then the file named by `$CLIPTO_KEY_FILE`, else fail naming both
mechanisms. -/
def load_key (env : Env) (fs : String → FsEntry) : Except String (List Nat) :=
  match env.credentialsDirectory with
  | some creds =>
    let path := creds ++ "/clipto-key"
    match fs path with
    | .file bytes => Except.ok bytes
    | .unreadable => Except.error ("failed to read key from " ++ path)
    | .absent => load_key_fallback env fs
  | none => load_key_fallback env fs

/-- The outcome of daemon startup, up to binding the listening socket. -/
inductive StartupResult
  | configError (message : String)
  | bound (key : List Nat)
  deriving DecidableEq, Repr

/-- The startup prefix of `main` (`clipd/src/main.rs` lines 246-263):
resolve the key, validate its length is exactly 32, and only then reach
the socket bind.  `StartupResult.configError` means the process exits
before `UnixListener::bind` is ever called. -/
def daemon_startup (env : Env) (fs : String → FsEntry) : StartupResult :=
  match load_key env fs with
  | .error e => .configError e
  | .ok key =>
    if key.length ≠ 32 then
      .configError ("key must be exactly 32 bytes, got " ++ toString key.length)
    else
      .bound key

/-! ## Compositor watcher (`clipd/src/main.rs` lines 160-230)

The watcher thread keeps `child : Option<Child>` and reacts to inotify
events on `$XDG_RUNTIME_DIR`.  An event carries an optional file name and
a mask; the loop body (lines 197-215) skips nameless events and events
whose name is not the display, re-assigns `child` from a fresh
`spawn_wl_paste` on CREATE, and takes/kills/waits the child on DELETE.
`spawn_wl_paste` may fail, returning `None`.  A bridge handle is a `Nat`
identifying the spawned `wl-paste` process. -/

/-- The mask bits of one inotify event, as tested by the loop body. -/
inductive EventKind
  | create
  | delete
  | other
  deriving DecidableEq, Repr

/-- One inotify event: `event.name` and its mask. -/
structure InotifyEvent where
  name : Option String
  kind : EventKind

/-- The watcher's state: the optional handle of the running bridge
subprocess (`child : Option<Child>`). -/
def WatcherState := Option Nat

/-- One iteration of the watcher loop body on one event
(`clipd/src/main.rs` lines 197-215).  `spawnResult` is what
`spawn_wl_paste` returns if it is called (`some h` on success, `none` on
spawn failure).  Returns the new state and whether `spawn_wl_paste` was
invoked (a bridge process spawn was attempted). -/
def watcher_step (display : String) (child : WatcherState) (ev : InotifyEvent)
    (spawnResult : Option Nat) : WatcherState × Bool :=
  match ev.name with
  | none => (child, false)
  | some name =>
    if name ≠ display then (child, false)
    else
      match ev.kind with
      | .create => (spawnResult, true)
      | .delete => (none, false)
      | .other => (child, false)

/-- How many bridge handles a watcher state holds. -/
def handleCount : WatcherState → Nat
  | none => 0
  | some _ => 1

/-! ## Interleaving model of concurrent connection workers

Each accepted connection runs `handle_connection` on its own thread; every
access to the store happens inside `state.lock().unwrap()` — a critical
section bracketed by mutex acquire and release (`clipd/src/main.rs` lines
102-124, the guard is dropped at line 106 or at the end of the match arm).
To show the mutex really forbids torn entries, the model is deliberately
finer-grained than the Rust statement level: the buffer's nonce and
ciphertext components are two separate shared cells, a copy's critical
section writes them in two separate steps, and a paste's critical section
reads them in two separate steps.  Absent the lock discipline a paste
could then observe the nonce of one copy next to the ciphertext of
another; the theorem shows the discipline excludes this. -/

/-- What a thread does with its critical section: a copy installs the
(nonce, ciphertext) pair it computed by encrypting its payload, a paste
reads the pair out. -/
inductive Role
  | copyR (nonce ciphertext : List Nat)
  | pasteR

/-- A configuration of the daemon: who holds the mutex, the two components
of the shared `buffer` cell, each thread's program counter, and each paste
thread's observations.  Program counters: 0 = before `lock()`, 1 = guard
held, nothing done, 2 = first component written/read, 3 = second component
written/read, 4 = guard released, done. -/
structure Config where
  lock : Option Nat
  bufNonce : Option (List Nat)
  bufCt : Option (List Nat)
  pc : Nat → Nat
  obsNonce : Nat → Option (List Nat)
  obsCt : Nat → Option (List Nat)

/-- The initial configuration: mutex free, `buffer: None`, every thread
before its `lock()` call. -/
def initConfig : Config :=
  { lock := none, bufNonce := none, bufCt := none
    pc := fun _ => 0, obsNonce := fun _ => none, obsCt := fun _ => none }

/-- One interleaved step of some thread `t`.  Acquire blocks until the
mutex is free; each in-section step requires `t` to hold the mutex, which
is exactly what `MutexGuard` enforces in the Rust. -/
inductive Step (roles : Nat → Role) : Config → Config → Prop
  | acquire (c : Config) (t : Nat)
      (hpc : c.pc t = 0) (hl : c.lock = none) :
      Step roles c { c with lock := some t, pc := Function.update c.pc t 1 }
  | writeNonce (c : Config) (t : Nat) (n ct : List Nat)
      (hr : roles t = .copyR n ct) (hpc : c.pc t = 1) (hl : c.lock = some t) :
      Step roles c { c with bufNonce := some n, pc := Function.update c.pc t 2 }
  | writeCt (c : Config) (t : Nat) (n ct : List Nat)
      (hr : roles t = .copyR n ct) (hpc : c.pc t = 2) (hl : c.lock = some t) :
      Step roles c { c with bufCt := some ct, pc := Function.update c.pc t 3 }
  | readNonce (c : Config) (t : Nat)
      (hr : roles t = .pasteR) (hpc : c.pc t = 1) (hl : c.lock = some t) :
      Step roles c { c with obsNonce := Function.update c.obsNonce t c.bufNonce,
                            pc := Function.update c.pc t 2 }
  | readCt (c : Config) (t : Nat)
      (hr : roles t = .pasteR) (hpc : c.pc t = 2) (hl : c.lock = some t) :
      Step roles c { c with obsCt := Function.update c.obsCt t c.bufCt,
                            pc := Function.update c.pc t 3 }
  | release (c : Config) (t : Nat)
      (hpc : c.pc t = 3) (hl : c.lock = some t) :
      Step roles c { c with lock := none, pc := Function.update c.pc t 4 }

/-- A configuration reachable from the initial one by any interleaving. -/
def Reachable (roles : Nat → Role) (c : Config) : Prop :=
  Relation.ReflTransGen (Step roles) initConfig c

/-- A (nonce, ciphertext) pair is complete when it is the initial empty
buffer or exactly the pair some single copy installs — never components of
two different writes. -/
def PairComplete (roles : Nat → Role) (n ct : Option (List Nat)) : Prop :=
  (n = none ∧ ct = none) ∨
    ∃ t nonce ciphertext, roles t = Role.copyR nonce ciphertext ∧
      n = some nonce ∧ ct = some ciphertext

/-- Thread `t` is inside its critical section (holds the store guard). -/
def InCS (c : Config) (t : Nat) : Prop :=
  1 ≤ c.pc t ∧ c.pc t ≤ 3

/-- The inductive invariant: the mutex owner is the only thread in its
critical section, the shared buffer is torn only while its owning copy is
mid-write, and a paste's observations are a snapshot of a complete pair. -/
def Inv (roles : Nat → Role) (c : Config) : Prop :=
  (∀ t, InCS c t → c.lock = some t) ∧
  (∀ t, c.lock = some t → InCS c t) ∧
  (c.lock = none → PairComplete roles c.bufNonce c.bufCt) ∧
  (∀ t, c.lock = some t →
    (match roles t with
     | .pasteR => PairComplete roles c.bufNonce c.bufCt
     | .copyR n ct =>
       (c.pc t = 1 → PairComplete roles c.bufNonce c.bufCt) ∧
       (c.pc t = 2 → c.bufNonce = some n) ∧
       (c.pc t = 3 → c.bufNonce = some n ∧ c.bufCt = some ct))) ∧
  (∀ t, roles t = .pasteR → c.pc t = 2 → c.obsNonce t = c.bufNonce) ∧
  (∀ t, roles t = .pasteR → 3 ≤ c.pc t →
    PairComplete roles (c.obsNonce t) (c.obsCt t))

/-- A concrete cipher used to instantiate theorems on concrete inputs:
encryption and decryption are the identity on the payload.  It satisfies
`Cipher.RoundTrip`. -/
def idCipher : Cipher :=
  { encrypt := fun _ p => some p, decrypt := fun _ ct => some ct }

/-- A concrete always-failing cipher, exercising the `store` error path. -/
def failCipher : Cipher :=
  { encrypt := fun _ _ => none, decrypt := fun _ _ => none }

/-- A concrete role assignment: thread 0 is a copy installing nonce `[1]`
and ciphertext `[2]`, every other thread is a paste. -/
def mixedRoles : Nat → Role :=
  fun t => if t = 0 then Role.copyR [1] [2] else Role.pasteR

/-- Trace configuration: thread 0 has acquired the mutex. -/
def traceC1 : Config :=
  { initConfig with lock := some 0, pc := Function.update initConfig.pc 0 1 }

/-- Trace configuration: thread 0 has written the nonce component. -/
def traceC2 : Config :=
  { traceC1 with bufNonce := some [1], pc := Function.update traceC1.pc 0 2 }

/-- Trace configuration: thread 0 has written the ciphertext component. -/
def traceC3 : Config :=
  { traceC2 with bufCt := some [2], pc := Function.update traceC2.pc 0 3 }

/-- Trace configuration: thread 0 has released the mutex. -/
def traceC4 : Config :=
  { traceC3 with lock := none, pc := Function.update traceC3.pc 0 4 }

/-- Trace configuration: paste thread 1 has acquired the mutex. -/
def traceC5 : Config :=
  { traceC4 with lock := some 1, pc := Function.update traceC4.pc 1 1 }

/-- Trace configuration: thread 1 has read the nonce component. -/
def traceC6 : Config :=
  { traceC5 with obsNonce := Function.update traceC5.obsNonce 1 traceC5.bufNonce,
                 pc := Function.update traceC5.pc 1 2 }

/-- Trace configuration: thread 1 has read the ciphertext component. -/
def traceC7 : Config :=
  { traceC6 with obsCt := Function.update traceC6.obsCt 1 traceC6.bufCt,
                 pc := Function.update traceC6.pc 1 3 }

/-- Trace configuration: thread 1 has released the mutex and is done. -/
def traceC8 : Config :=
  { traceC7 with lock := none, pc := Function.update traceC7.pc 1 4 }

/-- The invariant holds initially. -/
theorem inv_init (roles : Nat → Role) : Inv roles initConfig := by
  refine ⟨?_, ?_, ?_, ?_, ?_, ?_⟩
  · intro t ht
    exact absurd ht.1 (by simp [initConfig])
  · intro t ht
    simp [initConfig] at ht
  · intro _
    exact Or.inl ⟨rfl, rfl⟩
  · intro t ht
    simp [initConfig] at ht
  · intro t _ ht
    simp [initConfig] at ht
  · intro t _ ht
    simp [initConfig] at ht

/-- Unfolding lemma for the critical-section predicate. -/
theorem inCS_iff (c : Config) (t : Nat) : InCS c t ↔ 1 ≤ c.pc t ∧ c.pc t ≤ 3 :=
  Iff.rfl

/-- The invariant is preserved by every interleaved step. -/
theorem inv_step {roles : Nat → Role} {c c' : Config}
    (hinv : Inv roles c) (hstep : Step roles c c') : Inv roles c' := by
  obtain ⟨h1, h2, h3, h4, h5, h6⟩ := hinv
  cases hstep with
  | acquire t hpc hl =>
    refine ⟨?_, ?_, ?_, ?_, ?_, ?_⟩
    · intro u hu
      rw [inCS_iff] at hu
      dsimp only at hu ⊢
      by_cases hut : u = t
      · subst hut; rfl
      · rw [Function.update_noteq hut] at hu
        have heq := h1 u hu
        rw [hl] at heq
        simp at heq
    · intro u hu
      dsimp only at hu
      injection hu with h
      subst h
      rw [inCS_iff]
      dsimp only
      rw [Function.update_same]
      omega
    · intro hnone
      dsimp only at hnone
      simp at hnone
    · intro u hu
      dsimp only at hu ⊢
      injection hu with h
      subst h
      rw [Function.update_same]
      cases hru : roles t with
      | pasteR => exact h3 hl
      | copyR n ct =>
        exact ⟨fun _ => h3 hl, fun h => by simp at h, fun h => by simp at h⟩
    · intro u hru hu
      dsimp only at hu ⊢
      by_cases hut : u = t
      · subst hut; rw [Function.update_same] at hu; simp at hu
      · rw [Function.update_noteq hut] at hu
        exact h5 u hru hu
    · intro u hru hu
      dsimp only at hu ⊢
      by_cases hut : u = t
      · subst hut; rw [Function.update_same] at hu
        exact absurd hu (by decide)
      · rw [Function.update_noteq hut] at hu
        exact h6 u hru hu
  | writeNonce t n ct hr hpc hl =>
    refine ⟨?_, ?_, ?_, ?_, ?_, ?_⟩
    · intro u hu
      rw [inCS_iff] at hu
      dsimp only at hu ⊢
      by_cases hut : u = t
      · subst hut; exact hl
      · rw [Function.update_noteq hut] at hu
        exact h1 u hu
    · intro u hu
      dsimp only at hu
      rw [hl] at hu
      injection hu with h
      subst h
      rw [inCS_iff]
      dsimp only
      rw [Function.update_same]
      omega
    · intro hnone
      dsimp only at hnone
      rw [hl] at hnone
      simp at hnone
    · intro u hu
      dsimp only at hu ⊢
      rw [hl] at hu
      injection hu with h
      subst h
      rw [Function.update_same, hr]
      exact ⟨fun h => by simp at h, fun _ => rfl, fun h => by simp at h⟩
    · intro u hru hu
      dsimp only at hu ⊢
      by_cases hut : u = t
      · subst hut; rw [hru] at hr; simp at hr
      · rw [Function.update_noteq hut] at hu
        have hcs : InCS c u := by rw [inCS_iff]; omega
        have heq := h1 u hcs
        rw [hl] at heq
        injection heq with h
        exact absurd h.symm hut
    · intro u hru hu
      dsimp only at hu ⊢
      by_cases hut : u = t
      · subst hut; rw [hru] at hr; simp at hr
      · rw [Function.update_noteq hut] at hu
        exact h6 u hru hu
  | writeCt t n ct hr hpc hl =>
    refine ⟨?_, ?_, ?_, ?_, ?_, ?_⟩
    · intro u hu
      rw [inCS_iff] at hu
      dsimp only at hu ⊢
      by_cases hut : u = t
      · subst hut; exact hl
      · rw [Function.update_noteq hut] at hu
        exact h1 u hu
    · intro u hu
      dsimp only at hu
      rw [hl] at hu
      injection hu with h
      subst h
      rw [inCS_iff]
      dsimp only
      rw [Function.update_same]
      omega
    · intro hnone
      dsimp only at hnone
      rw [hl] at hnone
      simp at hnone
    · intro u hu
      dsimp only at hu ⊢
      rw [hl] at hu
      injection hu with h
      subst h
      rw [Function.update_same, hr]
      have h4t := h4 t hl
      rw [hr] at h4t
      exact ⟨fun h => by simp at h, fun h => by simp at h,
        fun _ => ⟨h4t.2.1 hpc, rfl⟩⟩
    · intro u hru hu
      dsimp only at hu ⊢
      by_cases hut : u = t
      · subst hut; rw [hru] at hr; simp at hr
      · rw [Function.update_noteq hut] at hu
        have hcs : InCS c u := by rw [inCS_iff]; omega
        have heq := h1 u hcs
        rw [hl] at heq
        injection heq with h
        exact absurd h.symm hut
    · intro u hru hu
      dsimp only at hu ⊢
      by_cases hut : u = t
      · subst hut; rw [hru] at hr; simp at hr
      · rw [Function.update_noteq hut] at hu
        exact h6 u hru hu
  | readNonce t hr hpc hl =>
    refine ⟨?_, ?_, ?_, ?_, ?_, ?_⟩
    · intro u hu
      rw [inCS_iff] at hu
      dsimp only at hu ⊢
      by_cases hut : u = t
      · subst hut; exact hl
      · rw [Function.update_noteq hut] at hu
        exact h1 u hu
    · intro u hu
      dsimp only at hu
      rw [hl] at hu
      injection hu with h
      subst h
      rw [inCS_iff]
      dsimp only
      rw [Function.update_same]
      omega
    · intro hnone
      dsimp only at hnone
      rw [hl] at hnone
      simp at hnone
    · intro u hu
      dsimp only at hu ⊢
      rw [hl] at hu
      injection hu with h
      subst h
      rw [hr]
      have h4t := h4 t hl
      rw [hr] at h4t
      exact h4t
    · intro u hru hu
      dsimp only at hu ⊢
      by_cases hut : u = t
      · subst hut
        rw [Function.update_same]
      · rw [Function.update_noteq hut] at hu
        rw [Function.update_noteq hut]
        have hcs : InCS c u := by rw [inCS_iff]; omega
        have heq := h1 u hcs
        rw [hl] at heq
        injection heq with h
        exact absurd h.symm hut
    · intro u hru hu
      dsimp only at hu ⊢
      by_cases hut : u = t
      · subst hut; rw [Function.update_same] at hu
        exact absurd hu (by decide)
      · rw [Function.update_noteq hut] at hu
        rw [Function.update_noteq hut]
        exact h6 u hru hu
  | readCt t hr hpc hl =>
    refine ⟨?_, ?_, ?_, ?_, ?_, ?_⟩
    · intro u hu
      rw [inCS_iff] at hu
      dsimp only at hu ⊢
      by_cases hut : u = t
      · subst hut; exact hl
      · rw [Function.update_noteq hut] at hu
        exact h1 u hu
    · intro u hu
      dsimp only at hu
      rw [hl] at hu
      injection hu with h
      subst h
      rw [inCS_iff]
      dsimp only
      rw [Function.update_same]
      omega
    · intro hnone
      dsimp only at hnone
      rw [hl] at hnone
      simp at hnone
    · intro u hu
      dsimp only at hu ⊢
      rw [hl] at hu
      injection hu with h
      subst h
      rw [hr]
      have h4t := h4 t hl
      rw [hr] at h4t
      exact h4t
    · intro u hru hu
      dsimp only at hu ⊢
      by_cases hut : u = t
      · subst hut; rw [Function.update_same] at hu; simp at hu
      · rw [Function.update_noteq hut] at hu
        have hcs : InCS c u := by rw [inCS_iff]; omega
        have heq := h1 u hcs
        rw [hl] at heq
        injection heq with h
        exact absurd h.symm hut
    · intro u hru hu
      dsimp only at hu ⊢
      by_cases hut : u = t
      · subst hut
        rw [Function.update_same]
        rw [h5 u hru hpc]
        have h4t := h4 u hl
        rw [hr] at h4t
        exact h4t
      · rw [Function.update_noteq hut] at hu
        rw [Function.update_noteq hut]
        exact h6 u hru hu
  | release t hpc hl =>
    refine ⟨?_, ?_, ?_, ?_, ?_, ?_⟩
    · intro u hu
      rw [inCS_iff] at hu
      dsimp only at hu ⊢
      by_cases hut : u = t
      · subst hut; rw [Function.update_same] at hu
        exact absurd hu.2 (by decide)
      · rw [Function.update_noteq hut] at hu
        have heq := h1 u hu
        rw [hl] at heq
        injection heq with h
        exact absurd h.symm hut
    · intro u hu
      dsimp only at hu
      simp at hu
    · intro _
      dsimp only
      have h4t := h4 t hl
      cases hru : roles t with
      | pasteR =>
        rw [hru] at h4t
        exact h4t
      | copyR n ct =>
        rw [hru] at h4t
        obtain ⟨hbn, hbc⟩ := h4t.2.2 hpc
        exact Or.inr ⟨t, n, ct, hru, hbn, hbc⟩
    · intro u hu
      dsimp only at hu
      simp at hu
    · intro u hru hu
      dsimp only at hu ⊢
      by_cases hut : u = t
      · subst hut; rw [Function.update_same] at hu; simp at hu
      · rw [Function.update_noteq hut] at hu
        exact h5 u hru hu
    · intro u hru hu
      dsimp only at hu ⊢
      by_cases hut : u = t
      · subst hut
        exact h6 u hru (by omega)
      · rw [Function.update_noteq hut] at hu
        exact h6 u hru hu

/-- Every reachable configuration satisfies the invariant. -/
theorem reachable_inv {roles : Nat → Role} {c : Config}
    (hr : Reachable roles c) : Inv roles c := by
  induction hr with
  | refl => exact inv_init roles
  | tail _ hstep ih => exact inv_step ih hstep

/-! ## Shared lemmas about the store -/

/-- Characterization of a successful `store`: the cipher produced a
ciphertext and the buffer was atomically replaced with the new pair. -/
theorem store_ok_elim {st st' : State} {nonce P : List Nat}
    (h : st.store nonce P = Except.ok st') :
    ∃ ct, st.cipher.encrypt nonce P = some ct ∧
      st' = { st with buffer := some ⟨nonce, ct⟩ } := by
  unfold State.store at h
  cases henc : st.cipher.encrypt nonce P with
  | none => rw [henc] at h; cases h
  | some ct =>
    rw [henc] at h
    injection h with h
    exact ⟨ct, rfl, h.symm⟩

/-- The cipher `idCipher` is a round-tripping cipher. -/
theorem idCipher_roundTrip : idCipher.RoundTrip := by
  intro nonce plaintext ciphertext h
  injection h with h
  subst h
  rfl

/-! ## Claim theorems -/

/-- Claim C3: for every byte payload P, including the empty payload,
after a successful `store(P)` on a daemon state whose session cipher is a
correct AEAD, `load()` on the resulting state succeeds and returns
exactly P. -/
theorem c3_store_load_roundtrip (st : State) (hrt : st.cipher.RoundTrip)
    (nonce P : List Nat) (st' : State)
    (hstore : st.store nonce P = Except.ok st') :
    st'.load = Except.ok P := by
  obtain ⟨ct, henc, rfl⟩ := store_ok_elim hstore
  unfold State.load
  dsimp only
  rw [hrt nonce P ct henc]

/-- Witness for C3 at a concrete input: the empty-buffer daemon under
`idCipher`, payload `[1, 2]` (and, via the same theorem applied at `[]`,
the empty payload). -/
theorem c3_witness :
    (({ cipher := idCipher, buffer := none } : State).store [0] [1, 2] =
      Except.ok { cipher := idCipher, buffer := some ⟨[0], [1, 2]⟩ } ∧
     ({ cipher := idCipher, buffer := some ⟨[0], [1, 2]⟩ } : State).load =
      Except.ok [1, 2]) ∧
    (({ cipher := idCipher, buffer := none } : State).store [0] [] =
      Except.ok { cipher := idCipher, buffer := some ⟨[0], []⟩ } ∧
     ({ cipher := idCipher, buffer := some ⟨[0], []⟩ } : State).load =
      Except.ok []) :=
  ⟨⟨rfl, c3_store_load_roundtrip { cipher := idCipher, buffer := none }
      idCipher_roundTrip [0] [1, 2]
      { cipher := idCipher, buffer := some ⟨[0], [1, 2]⟩ } rfl⟩,
   ⟨rfl, c3_store_load_roundtrip { cipher := idCipher, buffer := none }
      idCipher_roundTrip [0] []
      { cipher := idCipher, buffer := some ⟨[0], []⟩ } rfl⟩⟩

/-- Claim C4: after `store(P1)` followed by a successful `store(P2)`, the
state holds exactly one entry — the one encrypting P2 under the second
nonce — and `load()` returns P2: last-writer-wins replacement, no merge,
no history, no trace of P1 recoverable through `load`. -/
theorem c4_replacement (st st1 st2 : State) (hrt : st.cipher.RoundTrip)
    (n1 P1 n2 P2 : List Nat)
    (hs1 : st.store n1 P1 = Except.ok st1)
    (hs2 : st1.store n2 P2 = Except.ok st2) :
    st2.load = Except.ok P2 ∧
    ∃ ct2, st.cipher.encrypt n2 P2 = some ct2 ∧
      st2.buffer = some ⟨n2, ct2⟩ := by
  obtain ⟨ct1, henc1, rfl⟩ := store_ok_elim hs1
  obtain ⟨ct2, henc2, rfl⟩ := store_ok_elim hs2
  refine ⟨?_, ct2, henc2, rfl⟩
  unfold State.load
  dsimp only
  rw [hrt n2 P2 ct2 henc2]

/-- Witness for C4 at a concrete input: `store [3]` then `store [4, 5]`
under `idCipher`; the surviving entry is the second and `load` returns
`[4, 5]`. -/
theorem c4_witness :
    ({ cipher := idCipher, buffer := some ⟨[1], [4, 5]⟩ } : State).load =
      Except.ok [4, 5] ∧
    ∃ ct2, idCipher.encrypt [1] [4, 5] = some ct2 ∧
      (some ⟨[1], [4, 5]⟩ : Option EncryptedBuffer) = some ⟨[1], ct2⟩ :=
  c4_replacement { cipher := idCipher, buffer := none }
    { cipher := idCipher, buffer := some ⟨[0], [3]⟩ }
    { cipher := idCipher, buffer := some ⟨[1], [4, 5]⟩ }
    idCipher_roundTrip [0] [3] [1] [4, 5] rfl rfl

/-- Claim C5: handling a Copy request whose store step succeeds forwards
the plaintext to the compositor bridge if and only if the request's source
tag is User and the compositor socket is present; a Copy tagged Wayland
(compositor-sourced) never triggers a forward, and a User-tagged Copy with
no compositor present is stored successfully with the forward silently
skipped. -/
theorem c5_forwarding (st st' : State) (payload nonce : List Nat)
    (source : CopySource) (waylandUp wlCopyOk : Bool)
    (hstore : st.store nonce payload = Except.ok st') :
    ((handle_connection st (.copy payload source) nonce waylandUp wlCopyOk).forwarded
        = true ↔
      source = CopySource.user ∧ waylandUp = true) ∧
    (source = CopySource.user → waylandUp = false →
      handle_connection st (.copy payload source) nonce waylandUp wlCopyOk =
        { response := .ok, state := st', forwarded := false }) := by
  simp only [handle_connection]
  rw [hstore]
  cases source <;> cases waylandUp <;>
    simp [forwardsToBridge, sync_to_wayland]

/-- Witness for C5 at concrete inputs: under `idCipher`, a User-tagged
copy of `[7]` with no compositor present yields `Ok`, stores the entry and
does not forward. -/
theorem c5_witness :
    ((handle_connection { cipher := idCipher, buffer := none }
        (.copy [7] .user) [0] false false).forwarded = true ↔
      CopySource.user = CopySource.user ∧ false = true) ∧
    (CopySource.user = CopySource.user → false = false →
      handle_connection { cipher := idCipher, buffer := none }
          (.copy [7] .user) [0] false false =
        { response := .ok,
          state := { cipher := idCipher, buffer := some ⟨[0], [7]⟩ },
          forwarded := false }) :=
  c5_forwarding { cipher := idCipher, buffer := none }
    { cipher := idCipher, buffer := some ⟨[0], [7]⟩ }
    [7] [0] .user false false rfl

/-- Claim C6: for every Copy request whose store step succeeds, the
response is `Ok` and the stored entry is the one `store` installed,
regardless of whether the compositor socket is present or the `wl-copy`
forward succeeds; the whole handler result (response, state, and the
daemon's continued operation on that state) is the same for a failing
forward as for a succeeding one. -/
theorem c6_forward_failure_swallowed (st st' : State) (payload nonce : List Nat)
    (source : CopySource)
    (hstore : st.store nonce payload = Except.ok st') :
    (∀ waylandUp wlCopyOk,
      (handle_connection st (.copy payload source) nonce waylandUp wlCopyOk).response
        = .ok ∧
      (handle_connection st (.copy payload source) nonce waylandUp wlCopyOk).state
        = st') ∧
    (∀ waylandUp k1 k2,
      handle_connection st (.copy payload source) nonce waylandUp k1 =
        handle_connection st (.copy payload source) nonce waylandUp k2) := by
  simp only [handle_connection]
  rw [hstore]
  constructor
  · intro waylandUp wlCopyOk
    cases source <;> simp
  · intro waylandUp k1 k2
    cases source <;> simp

/-- Witness for C6 at concrete inputs: a User-tagged copy of `[9]` with
the compositor present but `wl-copy` failing still answers `Ok` with the
entry stored, identically to the succeeding-forward run. -/
theorem c6_witness :
    (∀ waylandUp wlCopyOk,
      (handle_connection { cipher := idCipher, buffer := none }
          (.copy [9] .user) [0] waylandUp wlCopyOk).response = .ok ∧
      (handle_connection { cipher := idCipher, buffer := none }
          (.copy [9] .user) [0] waylandUp wlCopyOk).state =
        { cipher := idCipher, buffer := some ⟨[0], [9]⟩ }) ∧
    (∀ waylandUp k1 k2,
      handle_connection { cipher := idCipher, buffer := none }
          (.copy [9] .user) [0] waylandUp k1 =
        handle_connection { cipher := idCipher, buffer := none }
          (.copy [9] .user) [0] waylandUp k2) :=
  c6_forward_failure_swallowed { cipher := idCipher, buffer := none }
    { cipher := idCipher, buffer := some ⟨[0], [9]⟩ } [9] [0] .user rfl

/-- Claim C7: `load()` fails with the empty-clipboard error if and only if
no entry exists; a Paste before any Copy yields an `ErrorResponse` with
the empty-clipboard message; and when an entry exists, `load()` returns
either the plaintext or the decryption error, never the empty-clipboard
error. -/
theorem c7_empty_clipboard (st : State) :
    (st.load = Except.error "clipboard is empty" ↔ st.buffer = none) ∧
    (∀ nonce waylandUp wlCopyOk, st.buffer = none →
      handle_connection st .paste nonce waylandUp wlCopyOk =
        { response := .error "clipboard is empty", state := st,
          forwarded := false }) ∧
    (∀ buf, st.buffer = some buf →
      (∃ P, st.load = Except.ok P) ∨
        st.load = Except.error "decryption failed") := by
  refine ⟨?_, ?_, ?_⟩
  · unfold State.load
    cases hb : st.buffer with
    | none => simp
    | some buf =>
      dsimp only
      cases hd : st.cipher.decrypt buf.nonce buf.ciphertext <;> simp
  · intro nonce waylandUp wlCopyOk hb
    simp only [handle_connection, State.load]
    rw [hb]
  · intro buf hb
    unfold State.load
    rw [hb]
    dsimp only
    cases hd : st.cipher.decrypt buf.nonce buf.ciphertext with
    | none => exact Or.inr rfl
    | some P => exact Or.inl ⟨P, rfl⟩

/-- Witness for C7 at a concrete input: a Paste on the fresh daemon state
(no Copy yet) returns the empty-clipboard `ErrorResponse`. -/
theorem c7_witness :
    handle_connection { cipher := idCipher, buffer := none } .paste
        [0] false false =
      { response := .error "clipboard is empty",
        state := { cipher := idCipher, buffer := none }, forwarded := false } :=
  (c7_empty_clipboard { cipher := idCipher, buffer := none }).2.1
    [0] false false rfl

/-- Claim C10 (implicit): if `store(P)` fails — the encryption step
returns an error — the buffer is left exactly as it was: the handler
answers with an `ErrorResponse` carrying the store's message, the state
after the request is the pre-call state (so a subsequent `load()` returns
the same result as before the failed store), no forward happens, and the
daemon keeps serving (the handler returns normally). -/
theorem c10_store_error_atomic (st : State) (payload nonce : List Nat)
    (source : CopySource) (waylandUp wlCopyOk : Bool)
    (henc : st.cipher.encrypt nonce payload = none) :
    handle_connection st (.copy payload source) nonce waylandUp wlCopyOk =
      { response := .error "encryption failed", state := st,
        forwarded := false } := by
  simp only [handle_connection, State.store]
  rw [henc]

/-- Witness for C10 at a concrete input: under the always-failing cipher,
a copy of `[1]` answers the encryption error and leaves the state — here
holding a previous entry — untouched. -/
theorem c10_witness :
    handle_connection { cipher := failCipher, buffer := some ⟨[0], [5]⟩ }
        (.copy [1] .user) [2] true true =
      { response := .error "encryption failed",
        state := { cipher := failCipher, buffer := some ⟨[0], [5]⟩ },
        forwarded := false } :=
  c10_store_error_atomic { cipher := failCipher, buffer := some ⟨[0], [5]⟩ }
    [1] [2] .user true true rfl

/-- Claim C8: key resolution checks the credential directory first and
returns the service-named file's bytes when that file exists (is
readable); otherwise — including when the variable is set but the file is
absent — it falls back to the development key-file override; with neither
mechanism available it fails with the configuration error naming both
`LoadCredentialEncrypted` and `CLIPTO_KEY_FILE`; and any resolved key
whose length is not exactly 32 bytes makes startup end in a configuration
error before the socket-binding stage is reached. -/
theorem c8_key_resolution :
    (∀ env fs creds bytes, env.credentialsDirectory = some creds →
      fs (creds ++ "/clipto-key") = FsEntry.file bytes →
      load_key env fs = Except.ok bytes) ∧
    (∀ env fs keyFile bytes,
      (env.credentialsDirectory = none ∨
        ∃ creds, env.credentialsDirectory = some creds ∧
          fs (creds ++ "/clipto-key") = FsEntry.absent) →
      env.cliptoKeyFile = some keyFile → fs keyFile = FsEntry.file bytes →
      load_key env fs = Except.ok bytes) ∧
    (∀ env fs,
      (env.credentialsDirectory = none ∨
        ∃ creds, env.credentialsDirectory = some creds ∧
          fs (creds ++ "/clipto-key") = FsEntry.absent) →
      env.cliptoKeyFile = none →
      load_key env fs = Except.error
        "no key found: run as a systemd service with LoadCredentialEncrypted=clipto-key:..., or set CLIPTO_KEY_FILE for development") ∧
    (∀ env fs key, load_key env fs = Except.ok key → key.length ≠ 32 →
      daemon_startup env fs =
        StartupResult.configError
          ("key must be exactly 32 bytes, got " ++ toString key.length)) := by
  refine ⟨?_, ?_, ?_, ?_⟩
  · intro env fs creds bytes hcd hfile
    unfold load_key
    rw [hcd]
    dsimp only
    rw [hfile]
  · intro env fs keyFile bytes hcd hkf hfile
    have hfb : load_key_fallback env fs = Except.ok bytes := by
      unfold load_key_fallback
      rw [hkf]
      dsimp only
      rw [hfile]
    unfold load_key
    rcases hcd with h | ⟨creds, hc, ha⟩
    · rw [h]; exact hfb
    · rw [hc]; dsimp only; rw [ha]; exact hfb
  · intro env fs hcd hkf
    have hfb : load_key_fallback env fs = Except.error
        "no key found: run as a systemd service with LoadCredentialEncrypted=clipto-key:..., or set CLIPTO_KEY_FILE for development" := by
      unfold load_key_fallback
      rw [hkf]
    unfold load_key
    rcases hcd with h | ⟨creds, hc, ha⟩
    · rw [h]; exact hfb
    · rw [hc]; dsimp only; rw [ha]; exact hfb
  · intro env fs key hload hlen
    unfold daemon_startup
    rw [hload]
    dsimp only
    rw [if_pos hlen]

/-- Witness for C8 at concrete inputs: with no credential directory, a
development key file of 31 bytes resolves, and startup fails with the
31-byte configuration error — the bind stage is never reached. -/
theorem c8_witness :
    load_key { credentialsDirectory := none, cliptoKeyFile := some "devkey" }
        (fun _ => FsEntry.file (List.replicate 31 0)) =
      Except.ok (List.replicate 31 0) ∧
    daemon_startup { credentialsDirectory := none, cliptoKeyFile := some "devkey" }
        (fun _ => FsEntry.file (List.replicate 31 0)) =
      StartupResult.configError "key must be exactly 32 bytes, got 31" := by
  have h1 := c8_key_resolution.2.1
    { credentialsDirectory := none, cliptoKeyFile := some "devkey" }
    (fun _ => FsEntry.file (List.replicate 31 0)) "devkey"
    (List.replicate 31 0) (Or.inl rfl) rfl rfl
  have h2 := c8_key_resolution.2.2.2
    { credentialsDirectory := none, cliptoKeyFile := some "devkey" }
    (fun _ => FsEntry.file (List.replicate 31 0)) (List.replicate 31 0) h1
    (by simp)
  exact ⟨h1, by rw [h2]; rfl⟩

/-- Claim C1 counterexample: with the watcher Active holding bridge
handle 0, a further creation event for the watched display name calls
`spawn_wl_paste` again (spawn flag `true`) and replaces the handle with
the fresh process's — the step is not a no-op and a second bridge process
is spawned: `child = spawn_wl_paste(&clipto_bin)` at
`clipd/src/main.rs` line 208 runs unconditionally, with no check that a
bridge is already running. -/
theorem c1_counterexample :
    watcher_step "wayland-0" (some 0)
        { name := some "wayland-0", kind := .create } (some 1) =
      (some 1, true) ∧
    watcher_step "wayland-0" (some 0)
        { name := some "wayland-0", kind := .create } (some 1) ≠
      ((some 0 : WatcherState), false) := by
  constructor
  · simp [watcher_step]
  · simp [watcher_step]

/-- Claim C1 as amended: a watcher state holds at most one bridge handle,
but a repeated creation event for the display while the watcher is Active
is not a no-op — it invokes `spawn_wl_paste` again and replaces the
stored handle with the result, dropping the previous handle without
killing its process. -/
theorem c1_amended (display : String) (child : WatcherState)
    (spawnResult : Option Nat) :
    watcher_step display child { name := some display, kind := .create }
        spawnResult = (spawnResult, true) ∧
    (∀ s : WatcherState, handleCount s ≤ 1) := by
  constructor
  · simp [watcher_step]
  · intro s
    cases s <;> simp [handleCount]

/-! ## Frame-size lemmas for C2 -/

/-- Reading back a 4-byte little-endian encoding yields the encoded value. -/
theorem u32_le_roundtrip (n : Nat) (hn : n < 2 ^ 32) :
    u32FromLeBytes (n % 256) (n / 256 % 256) (n / 65536 % 256)
      (n / 16777216 % 256) = n := by
  unfold u32FromLeBytes
  omega

/-- The declared length of a well-formed encoded frame. -/
theorem declaredLen_encoded (L : Nat) (hL : L < 2 ^ 32) (rest : List Nat) :
    declaredLen (u32ToLeBytes L ++ rest) = some L := by
  unfold u32ToLeBytes declaredLen
  simp only [List.cons_append, List.nil_append]
  rw [u32_le_roundtrip L hL]

/-- Function `read_frame` accepts any frame whose declared payload is fully
available, whatever its size: there is no length check. -/
theorem readFrameBytes_complete (L : Nat) (hL : L < 2 ^ 32)
    (payload rest : List Nat) (hlen : payload.length = L) :
    readFrameBytes (u32ToLeBytes L ++ (payload ++ rest)) =
      Except.ok (payload, rest) := by
  unfold u32ToLeBytes readFrameBytes
  simp only [List.cons_append, List.nil_append]
  rw [u32_le_roundtrip L hL]
  rw [if_pos (by simp [List.length_append]; omega)]
  rw [← hlen, List.take_left, List.drop_left]

/-- Claim C2 counterexample: no fixed implementation maximum M (one that
excludes at least one representable 4-byte length, i.e. `M + 1 < 2^32`)
makes `read_frame` reject all frames declaring more than M bytes — for
every such M, the well-formed frame declaring `M + 1` bytes with its
payload present is accepted.  `read_frame` performs no length check
(`clipto-ipc/src/lib.rs` lines 51-58), as spec §9 itself records. -/
theorem c2_counterexample :
    ¬ ∃ M : Nat, M + 1 < 2 ^ 32 ∧
      ∀ input L, declaredLen input = some L → M < L →
        ∃ e, readFrameBytes input = Except.error e := by
  rintro ⟨M, hM, h⟩
  obtain ⟨e, he⟩ := h (u32ToLeBytes (M + 1) ++ List.replicate (M + 1) 0) (M + 1)
    (declaredLen_encoded (M + 1) hM _) (by omega)
  have hok := readFrameBytes_complete (M + 1) hM (List.replicate (M + 1) 0) []
    (by simp)
  rw [List.append_nil] at hok
  rw [hok] at he
  cases he

/-- Claim C2 as amended: `read_frame` enforces no maximum on the declared
length — for every candidate bound M below the 4-byte range, some frame
with declared length exceeding M is accepted in full — but it does return
an error (never a panic) whenever the stream ends before the declared
number of payload bytes has been read, including when the stream ends
inside the 4-byte length prefix itself. -/
theorem c2_amended :
    (∀ M : Nat, M + 1 < 2 ^ 32 →
      ∃ input L, declaredLen input = some L ∧ M < L ∧
        ∃ frame rest, readFrameBytes input = Except.ok (frame, rest)) ∧
    (∀ input L, declaredLen input = some L → input.length < 4 + L →
      readFrameBytes input = Except.error "unexpected end of file") ∧
    (∀ input : List Nat, input.length < 4 →
      readFrameBytes input = Except.error "unexpected end of file") := by
  refine ⟨?_, ?_, ?_⟩
  · intro M hM
    refine ⟨u32ToLeBytes (M + 1) ++ List.replicate (M + 1) 0, M + 1,
      declaredLen_encoded (M + 1) hM _, by omega,
      List.replicate (M + 1) 0, [], ?_⟩
    have hok := readFrameBytes_complete (M + 1) hM (List.replicate (M + 1) 0) []
      (by simp)
    rw [List.append_nil] at hok
    exact hok
  · intro input L hdecl hshort
    cases input with
    | nil => simp [declaredLen] at hdecl
    | cons b0 t0 =>
      cases t0 with
      | nil => simp [declaredLen] at hdecl
      | cons b1 t1 =>
        cases t1 with
        | nil => simp [declaredLen] at hdecl
        | cons b2 t2 =>
          cases t2 with
          | nil => simp [declaredLen] at hdecl
          | cons b3 rest =>
            have hL : u32FromLeBytes b0 b1 b2 b3 = L := by
              simpa [declaredLen] using hdecl
            unfold readFrameBytes
            dsimp only
            rw [hL, if_neg]
            simp only [List.length_cons] at hshort
            omega
  · intro input hshort
    cases input with
    | nil => rfl
    | cons b0 t0 =>
      cases t0 with
      | nil => rfl
      | cons b1 t1 =>
        cases t1 with
        | nil => rfl
        | cons b2 t2 =>
          cases t2 with
          | nil => rfl
          | cons b3 rest =>
            simp only [List.length_cons] at hshort
            omega

/-- Witness for the amended C2 at concrete inputs: a frame declaring 5
bytes beyond the candidate bound 4 is accepted when complete; the same
4-byte prefix with no payload errors; a 2-byte stream errors. -/
theorem c2_amended_witness :
    (∃ input L, declaredLen input = some L ∧ 4 < L ∧
      ∃ frame rest, readFrameBytes input = Except.ok (frame, rest)) ∧
    readFrameBytes [5, 0, 0, 0] = Except.error "unexpected end of file" ∧
    readFrameBytes [1, 2] = Except.error "unexpected end of file" :=
  ⟨c2_amended.1 4 (by norm_num),
   c2_amended.2.1 [5, 0, 0, 0] 5 (by decide) (by decide),
   c2_amended.2.2 [1, 2] (by decide)⟩

/-- Claim C9: under any interleaving of concurrent Copy and Paste
workers, all store accesses are mutually exclusive (two threads inside
their critical sections are the same thread), and every Paste that has
completed both reads observed a complete (nonce, ciphertext) pair —
either the initial empty buffer or the exact pair installed by a single
Copy — never a mixture of two writes. -/
theorem c9_no_torn_reads (roles : Nat → Role) (c : Config)
    (hreach : Reachable roles c) :
    (∀ t u, InCS c t → InCS c u → t = u) ∧
    (∀ t, roles t = Role.pasteR → 3 ≤ c.pc t →
      PairComplete roles (c.obsNonce t) (c.obsCt t)) := by
  obtain ⟨h1, _h2, _h3, _h4, _h5, h6⟩ := reachable_inv hreach
  refine ⟨?_, h6⟩
  intro t u ht hu
  exact Option.some.inj ((h1 t ht).symm.trans (h1 u hu))

/-- Witness for C9 at a concrete reachable configuration: the 8-step
interleaving in which copy thread 0 installs ([1], [2]) and paste
thread 1 then snapshots it; the theorem applies to the resulting
configuration `traceC8`. -/
theorem c9_witness :
    (∀ t u, InCS traceC8 t → InCS traceC8 u → t = u) ∧
    (∀ t, mixedRoles t = Role.pasteR → 3 ≤ traceC8.pc t →
      PairComplete mixedRoles (traceC8.obsNonce t) (traceC8.obsCt t)) :=
  c9_no_torn_reads mixedRoles traceC8
    (Relation.ReflTransGen.tail
      (Relation.ReflTransGen.tail
        (Relation.ReflTransGen.tail
          (Relation.ReflTransGen.tail
            (Relation.ReflTransGen.tail
              (Relation.ReflTransGen.tail
                (Relation.ReflTransGen.tail
                  (Relation.ReflTransGen.tail Relation.ReflTransGen.refl
                    (Step.acquire initConfig 0 rfl rfl))
                  (Step.writeNonce traceC1 0 [1] [2] rfl rfl rfl))
                (Step.writeCt traceC2 0 [1] [2] rfl rfl rfl))
              (Step.release traceC3 0 rfl rfl))
            (Step.acquire traceC4 1 rfl rfl))
          (Step.readNonce traceC5 1 rfl rfl rfl))
        (Step.readCt traceC6 1 rfl rfl rfl))
      (Step.release traceC7 1 rfl rfl))

end Clipto
